import Mathlib

/-!
Verification of the Cursor-DataCloud-Connector repository.

Part 1 models the token acquisition and caching state machine (TokenManager).
The middleware and MCP auth module itself (for example auth/tokens.py named in
the architecture document) is not among the provided sources, only its callers
and documentation are, so the TokenManager definitions below are modelled from
the specification text and are marked as such.

Part 2 embeds the extension and webview code that is present in the sources
(extension.ts: SalesforceDataCloudProvider and ChatInterface).
-/

/-- Modelled from the spec: the CachedToken record of spec section 3 (DATA
MODEL); the implementing module (auth/tokens.py) is missing from the provided
sources. Timestamps are in whole seconds. -/
structure CachedToken where
  value : String
  baseUrl : String
  expiresAt : Int
  obtainedAt : Int
deriving Repr, DecidableEq

/-- Modelled from the spec: a CachedToken is considered valid iff
now < expiresAt - safetyMargin (spec sections 3 and 4.1). -/
def tokenIsValid (margin now : Int) (c : CachedToken) : Bool :=
  now < c.expiresAt - margin

/-- Response of the identity token step (step 1): HTTP status, a platform
access token and an instance URL (spec section 4.1). -/
structure Step1Response where
  status : Nat
  access_token : String
  instance_url : String
deriving Repr, DecidableEq

/-- Response of the resource token exchange step (step 2): HTTP status, a
resource-scoped access token, a resource base URL and an expiry duration in
seconds (spec section 4.1). -/
structure Step2Response where
  status : Nat
  access_token : String
  base_url : String
  expires_in : Int
deriving Repr, DecidableEq

/-- Success range of an HTTP status code. -/
def is2xx (s : Nat) : Bool := 200 ≤ s && s < 300

/-- Modelled from the spec: AuthError carries the failing stage name
("identity" or "exchange") and the HTTP status when available
(spec section 7). -/
structure AuthError where
  stage : String
  status : Option Nat
deriving Repr, DecidableEq

/-- State of the TokenManager: at most one CachedToken per credential scope. -/
structure TMState where
  cache : Option CachedToken
deriving Repr, DecidableEq

/-- Result of one getToken call: the outcome, the state after the call, and
how many step-1 and step-2 network calls were made during the call. -/
structure GetTokenResult where
  outcome : Except AuthError (String × String)
  state : TMState
  step1Calls : Nat
  step2Calls : Nat
deriving Repr

/-- Modelled from the spec: the two-step exchange chain of section 4.1,
executed strictly in order: step 2 is only attempted when step 1 returned a
2xx status; each component of the returned pair of counters records how many
times the corresponding network call was made. -/
def exchangeChain (now : Int) (r1 : Step1Response) (r2 : Step2Response) :
    Except AuthError CachedToken × Nat × Nat :=
  if is2xx r1.status then
    if is2xx r2.status then
      (Except.ok { value := r2.access_token, baseUrl := r2.base_url,
                   expiresAt := now + r2.expires_in, obtainedAt := now }, 1, 1)
    else (Except.error { stage := "exchange", status := some r2.status }, 1, 1)
  else (Except.error { stage := "identity", status := some r1.status }, 1, 0)

/-- Modelled from the spec: the refresh path of getToken. On success the
CachedToken entry is replaced atomically; on failure no cache entry is
written and the prior state is kept (spec sections 4.1 and 8). -/
def refreshToken (now : Int) (r1 : Step1Response) (r2 : Step2Response)
    (s : TMState) : GetTokenResult :=
  match exchangeChain now r1 r2 with
  | (Except.ok c, n1, n2) =>
    { outcome := Except.ok (c.value, c.baseUrl), state := { cache := some c },
      step1Calls := n1, step2Calls := n2 }
  | (Except.error e, n1, n2) =>
    { outcome := Except.error e, state := s, step1Calls := n1, step2Calls := n2 }

/-- Modelled from the spec: getToken returns the cached pair if valid,
otherwise performs the full exchange chain and caches the result before
returning (spec section 4.1). The transport is modelled by passing the
responses the two steps would receive. -/
def getToken (margin now : Int) (r1 : Step1Response) (r2 : Step2Response)
    (s : TMState) : GetTokenResult :=
  match s.cache with
  | some c =>
    if tokenIsValid margin now c then
      { outcome := Except.ok (c.value, c.baseUrl), state := s,
        step1Calls := 0, step2Calls := 0 }
    else refreshToken now r1 r2 s
  | none => refreshToken now r1 r2 s

/-- Modelled from the spec: invalidate forces the next getToken call to
bypass the cache and redo the exchange (spec section 4.1). -/
def invalidate (_s : TMState) : TMState := { cache := none }

/-- Whether a getToken call at the given time would miss the cache. -/
def cacheMiss (margin now : Int) (s : TMState) : Bool :=
  match s.cache with
  | none => true
  | some c => !tokenIsValid margin now c

/-- Run a sequence of getToken calls at the given times, threading the state
and summing the step-1 network calls (each exchange chain begins with exactly
one step-1 call, so this sum counts executed chains). -/
def runGetTokens (margin : Int) (r1 : Step1Response) (r2 : Step2Response) :
    TMState → List Int →
      List (Except AuthError (String × String)) × TMState × Nat
  | s, [] => ([], s, 0)
  | s, now :: rest =>
    let g := getToken margin now r1 r2 s
    let r := runGetTokens margin r1 r2 g.state rest
    (g.outcome :: r.1, r.2.1, g.step1Calls + r.2.2)

/-- Event of the concurrent getToken model: a caller arrives, or the
in-flight exchange chain completes. -/
inductive TMEvent
  | arrive (i : Nat)
  | complete
deriving Repr, DecidableEq

/-- State of the concurrent single-flight model: the cache, the number of
exchange chains currently in flight, the callers waiting on the in-flight
chain, the pairs already handed to callers, and the total number of chains
(network call pairs) started. -/
structure ConcState where
  cache : Option CachedToken
  inflight : Nat
  waiters : List Nat
  served : List (Nat × String × String)
  chains : Nat
deriving Repr, DecidableEq

/-- Modelled from the spec: an arriving caller that misses the cache starts
an exchange chain only when none is in flight, otherwise it joins the
waiters of the chain already in flight (single-flight, spec section 5). -/
def concJoin (i : Nat) (s : ConcState) : ConcState :=
  if s.inflight = 0 then
    { s with inflight := 1, chains := s.chains + 1, waiters := i :: s.waiters }
  else
    { s with waiters := i :: s.waiters }

/-- Modelled from the spec: one step of the concurrent model. An arriving
caller is served from a valid cache immediately; otherwise it starts or
joins the single in-flight chain. On completion the result is cached and
every waiter receives the same freshly exchanged pair (spec section 5). -/
def concStep (margin now : Int) (r2 : Step2Response) (s : ConcState) :
    TMEvent → ConcState
  | TMEvent.arrive i =>
    match s.cache with
    | some c =>
      if tokenIsValid margin now c then
        { s with served := (i, c.value, c.baseUrl) :: s.served }
      else concJoin i s
    | none => concJoin i s
  | TMEvent.complete =>
    if s.inflight = 0 then s
    else
      { cache := some { value := r2.access_token, baseUrl := r2.base_url,
                        expiresAt := now + r2.expires_in, obtainedAt := now }
        inflight := s.inflight - 1
        waiters := []
        served := s.waiters.map (fun i => (i, r2.access_token, r2.base_url))
                    ++ s.served
        chains := s.chains }

/-- Run the concurrent model over a list of events. -/
def runConc (margin now : Int) (r2 : Step2Response) :
    ConcState → List TMEvent → ConcState
  | s, [] => s
  | s, e :: rest => runConc margin now r2 (concStep margin now r2 s e) rest

/-- Initial state of the concurrent model: empty cache, nothing in flight. -/
def concInit : ConcState :=
  { cache := none, inflight := 0, waiters := [], served := [], chains := 0 }

/-- JavaScript truthiness of a string-or-undefined value: undefined and the
empty string are falsy. -/
def jsTruthyStr : Option String → Bool
  | none => false
  | some s => !s.isEmpty

/-- Embedding of SalesforceDataCloudProvider._getApiKey (extension.ts lines
168 to 188): return the stored key if truthy, otherwise the prompt result,
which is stored back only when truthy. The first component is the returned
key, the second the secret-storage content afterwards. -/
def getApiKey (stored promptInput : Option String) :
    Option String × Option String :=
  if jsTruthyStr stored then (stored, stored)
  else if jsTruthyStr promptInput then (promptInput, promptInput)
  else (promptInput, stored)

/-- Observable effects of the embedded _handleQuery. The invalidateCall
constructor is part of the effect vocabulary so that its absence can be
stated; the source never produces it (extension.ts has no invalidate). -/
inductive ExtEffect
  | httpPost (url : String) (apiKey : String)
  | showError (msg : String)
  | postQueryResponse (success : Bool) (errorCode : Option String)
  | invalidateCall
deriving Repr, DecidableEq

/-- Outcome of the fetch call to the middleware as seen by _handleQuery:
either the request itself fails, or a response arrives with an HTTP status,
a status text, and the status field of the parsed JSON body. -/
inductive Transport
  | netFail (msg : String)
  | reply (status : Nat) (statusText : String) (bodyStatus : String)
deriving Repr, DecidableEq

/-- The response.ok predicate of the fetch API: status in the 2xx range. -/
def responseOk (status : Nat) : Bool := 200 ≤ status && status < 300

/-- Embedding of SalesforceDataCloudProvider._handleQuery (extension.ts lines
88 to 155), with output-channel logging omitted. A missing or empty API key
reports an error and stops before any network activity; otherwise exactly one
POST goes to the middleware. A non-ok response throws, and the catch block
shows the error and posts a NETWORK_ERROR queryResponse; there is no retry
path and no invalidate call anywhere in the function. -/
def handleQuery (middlewareUrl : String) (apiKey : Option String)
    (t : Transport) : List ExtEffect :=
  if !jsTruthyStr apiKey then
    [ExtEffect.showError "API key not configured. Please set the API key in settings."]
  else
    ExtEffect.httpPost (middlewareUrl ++ "/api/v1/query") (apiKey.getD "") ::
    match t with
    | Transport.netFail m =>
      [ExtEffect.showError ("Query failed: " ++ m),
       ExtEffect.postQueryResponse false (some "NETWORK_ERROR")]
    | Transport.reply status statusText bodyStatus =>
      if responseOk status then
        [ExtEffect.postQueryResponse (bodyStatus == "success") none]
      else
        [ExtEffect.showError ("Query failed: Error: HTTP " ++ toString status
           ++ ": " ++ statusText),
         ExtEffect.postQueryResponse false (some "NETWORK_ERROR")]

/-- Predicate singling out HTTP requests among the effects. -/
def isHttpPost : ExtEffect → Bool
  | ExtEffect.httpPost _ _ => true
  | _ => false

/-- Predicate singling out invalidate calls among the effects. -/
def isInvalidateCall : ExtEffect → Bool
  | ExtEffect.invalidateCall => true
  | _ => false

/-- Embedding of the JavaScript String.prototype.trim call used by
ChatInterface.sendQuery: drop whitespace from both ends, written over the
character list so that it is fully executable. -/
def jsTrim (s : String) : String :=
  String.mk
    (((s.data.dropWhile Char.isWhitespace).reverse.dropWhile
        Char.isWhitespace).reverse)

/-- State of the embedded ChatInterface (extension.ts webview part): the
input field content, the processing flag, the derived disabled flags of the
send button and the input, the status line, and a ghost counter inFlight of
query messages posted to the extension minus queryResponse messages
handled. -/
structure ChatState where
  inputValue : String
  isProcessing : Bool
  sendButtonDisabled : Bool
  inputDisabled : Bool
  statusText : String
  inFlight : Nat
deriving Repr, DecidableEq

/-- Initial webview state: empty input, Ready status, nothing in flight. -/
def chatInit : ChatState :=
  { inputValue := "", isProcessing := false, sendButtonDisabled := false,
    inputDisabled := false, statusText := "Ready", inFlight := 0 }

/-- Embedding of ChatInterface.setProcessing (extension.ts lines 509 to
521): sets the flag, disables or enables the send button and the input, and
updates the status line. -/
def setProcessing (p : Bool) (s : ChatState) : ChatState :=
  { s with
    isProcessing := p, sendButtonDisabled := p, inputDisabled := p,
    statusText := if p then "Processing..." else "Ready" }

/-- Embedding of ChatInterface.sendQuery (extension.ts lines 366 to 389):
trim the input; if it is empty or a query is already processing, do nothing
and post no message; otherwise clear the input, enter the processing state
and post the trimmed query to the extension (the ghost counter records the
posted message). -/
def sendQuery (s : ChatState) : ChatState × Option String :=
  let query := jsTrim s.inputValue
  if query.isEmpty || s.isProcessing then (s, none)
  else
    let s1 := setProcessing true { s with inputValue := "" }
    ({ s1 with inFlight := s1.inFlight + 1 }, some query)

/-- Embedding of ChatInterface.handleQueryResponse as far as the processing
state is concerned (extension.ts lines 391 to 412): leave the processing
state (the ghost counter records the handled response). -/
def handleQueryResponse (s : ChatState) : ChatState :=
  { setProcessing false s with inFlight := s.inFlight - 1 }

/-- User-visible events of the webview: typing into the input field,
clicking send (or pressing Enter), and a queryResponse message arriving
from the extension. -/
inductive ChatEvent
  | setInput (t : String)
  | send
  | response
deriving Repr, DecidableEq

/-- One step of the webview state machine. -/
def chatStep (s : ChatState) : ChatEvent → ChatState
  | ChatEvent.setInput t => { s with inputValue := t }
  | ChatEvent.send => (sendQuery s).1
  | ChatEvent.response => handleQueryResponse s

/-- Run the webview state machine over a list of events. -/
def runChat : ChatState → List ChatEvent → ChatState
  | s, [] => s
  | s, e :: rest => runChat (chatStep s e) rest

/-- Invariant tying the ghost in-flight counter to the processing flag. -/
def chatInv (s : ChatState) : Prop :=
  s.inFlight = if s.isProcessing then 1 else 0

/-- JavaScript values as they occur in a query-response record: null,
undefined, or a renderable primitive. -/
inductive JSVal
  | jnull
  | jundef
  | jstr (s : String)
  | jnum (n : Int)
  | jbool (b : Bool)
deriving Repr, DecidableEq

/-- Template-literal coercion of a JSVal to a string, as in the line
interpolation of formatQueryResponse. -/
def JSVal.render : JSVal → String
  | JSVal.jnull => "null"
  | JSVal.jundef => "undefined"
  | JSVal.jstr s => s
  | JSVal.jnum n => toString n
  | JSVal.jbool b => if b then "true" else "false"

/-- The condition value of the field filter in formatQueryResponse:
value !== null && value !== undefined. -/
def jsDefined : JSVal → Bool
  | JSVal.jnull => false
  | JSVal.jundef => false
  | _ => true

/-- The data payload of a query response as consumed by formatQueryResponse
(extension.ts lines 414 to 443): records with their field entries in
Object.entries order, the total size, and the optional execution time. The
defaulting of a missing records field to the empty list and of a missing
total size to 0 is already applied. -/
structure QueryData where
  records : List (List (String × JSVal))
  total_size : Nat
  execution_time_ms : Option Nat
deriving Repr, DecidableEq

/-- Embedding of ChatInterface.formatQueryResponse (extension.ts lines 414
to 443): empty record list short-circuits to a fixed message; otherwise the
header, then per record a title line and one line per field whose value is
neither null nor undefined, a blank line after each record, and the
execution time note when that number is truthy. -/
def formatQueryResponse (data : QueryData) : String :=
  if data.records.length = 0 then
    "No records found matching your query."
  else
    let result := "Found " ++ toString data.total_size ++ " record(s):\n\n"
    let result := data.records.enum.foldl
      (fun r p =>
        let r := r ++ "**Record " ++ toString (p.1 + 1) ++ ":**\n"
        let r := p.2.foldl
          (fun r kv =>
            if jsDefined kv.2 then
              r ++ "- " ++ kv.1 ++ ": " ++ kv.2.render ++ "\n"
            else r) r
        r ++ "\n")
      result
    match data.execution_time_ms with
    | some t =>
      if t != 0 then result ++ "*Query executed in " ++ toString t ++ "ms*"
      else result
    | none => result

/-- Specification-side shape of the block printed for one record: the title
line followed by one line per field whose value is neither null nor
undefined, then a blank line. -/
def recordBlock (i : Nat) (fields : List (String × JSVal)) : String :=
  "**Record " ++ toString (i + 1) ++ ":**\n" ++
  String.join ((fields.filter (fun kv => jsDefined kv.2)).map
    (fun kv => "- " ++ kv.1 ++ ": " ++ kv.2.render ++ "\n")) ++ "\n"

/-- Specification-side shape of the optional execution time note. -/
def execNote (data : QueryData) : String :=
  match data.execution_time_ms with
  | some t =>
    if t != 0 then "*Query executed in " ++ toString t ++ "ms*" else ""
  | none => ""

lemma getToken_cached_valid (margin now : Int) (r1 : Step1Response)
    (r2 : Step2Response) (c : CachedToken)
    (h : tokenIsValid margin now c = true) :
    getToken margin now r1 r2 { cache := some c } =
      { outcome := Except.ok (c.value, c.baseUrl), state := { cache := some c },
        step1Calls := 0, step2Calls := 0 } := by
  simp [getToken, h]

lemma runGetTokens_cached (margin : Int) (r1 : Step1Response)
    (r2 : Step2Response) (c : CachedToken) (ts : List Int)
    (hv : ∀ t ∈ ts, tokenIsValid margin t c = true) :
    runGetTokens margin r1 r2 { cache := some c } ts =
      (ts.map (fun _ => Except.ok (c.value, c.baseUrl)),
       { cache := some c }, 0) := by
  induction ts with
  | nil => rfl
  | cons t rest ih =>
    have ht : tokenIsValid margin t c = true := hv t (List.mem_cons_self t rest)
    have hrest : ∀ u ∈ rest, tokenIsValid margin u c = true :=
      fun u hu => hv u (List.mem_cons_of_mem t hu)
    simp [runGetTokens, getToken_cached_valid margin t r1 r2 c ht, ih hrest]

/-- C1: starting with an empty cache, a sequence of getToken calls whose later
call times all fall inside the validity window of the token obtained by the
first call executes exactly one exchange chain in total, and every call in
the sequence returns the same pair, namely the step-2 token and base URL. -/
theorem c1_single_chain_same_pair (margin : Int) (r1 : Step1Response)
    (r2 : Step2Response) (t0 : Int) (ts : List Int)
    (h1 : is2xx r1.status = true) (h2 : is2xx r2.status = true)
    (hv : ∀ t ∈ ts, t < (t0 + r2.expires_in) - margin) :
    (runGetTokens margin r1 r2 { cache := none } (t0 :: ts)).2.2 = 1 ∧
    ∀ o ∈ (runGetTokens margin r1 r2 { cache := none } (t0 :: ts)).1,
      o = Except.ok (r2.access_token, r2.base_url) := by
  have hchain : exchangeChain t0 r1 r2 =
      (Except.ok { value := r2.access_token, baseUrl := r2.base_url,
                   expiresAt := t0 + r2.expires_in, obtainedAt := t0 }, 1, 1) := by
    simp [exchangeChain, h1, h2]
  have hfirst : getToken margin t0 r1 r2 { cache := none } =
      { outcome := Except.ok (r2.access_token, r2.base_url),
        state := { cache := some { value := r2.access_token,
                                   baseUrl := r2.base_url,
                                   expiresAt := t0 + r2.expires_in,
                                   obtainedAt := t0 } },
        step1Calls := 1, step2Calls := 1 } := by
    simp [getToken, refreshToken, hchain]
  have hv2 : ∀ t ∈ ts, tokenIsValid margin t
      { value := r2.access_token, baseUrl := r2.base_url,
        expiresAt := t0 + r2.expires_in, obtainedAt := t0 } = true := by
    intro t ht
    simp [tokenIsValid]
    exact hv t ht
  have hrun := runGetTokens_cached margin r1 r2
      { value := r2.access_token, baseUrl := r2.base_url,
        expiresAt := t0 + r2.expires_in, obtainedAt := t0 } ts hv2
  constructor
  · simp [runGetTokens, hfirst, hrun]
  · intro o ho
    have hlist : (runGetTokens margin r1 r2 { cache := none } (t0 :: ts)).1 =
        Except.ok (r2.access_token, r2.base_url) ::
          ts.map (fun _ => Except.ok (r2.access_token, r2.base_url)) := by
      simp [runGetTokens, hfirst, hrun]
    rw [hlist] at ho
    rcases List.mem_cons.mp ho with h | h
    · exact h
    · rcases List.mem_map.mp h with ⟨t, _, hmap⟩
      exact hmap.symm

/-- C1 witness: a concrete instance with three calls inside the window. -/
theorem c1_single_chain_same_pair_witness :
    (runGetTokens 60 { status := 200, access_token := "P1",
                       instance_url := "https://i.example" }
                     { status := 200, access_token := "R1",
                       base_url := "https://r.example", expires_in := 3600 }
                     { cache := none } [0, 100, 200]).2.2 = 1 ∧
    ∀ o ∈ (runGetTokens 60 { status := 200, access_token := "P1",
                             instance_url := "https://i.example" }
                           { status := 200, access_token := "R1",
                             base_url := "https://r.example",
                             expires_in := 3600 }
                           { cache := none } [0, 100, 200]).1,
      o = Except.ok ("R1", "https://r.example") :=
  c1_single_chain_same_pair 60
    { status := 200, access_token := "P1", instance_url := "https://i.example" }
    { status := 200, access_token := "R1", base_url := "https://r.example",
      expires_in := 3600 }
    0 [100, 200] (by decide) (by decide) (by decide)

lemma refreshToken_step1Calls (now : Int) (r1 : Step1Response)
    (r2 : Step2Response) (s : TMState) :
    (refreshToken now r1 r2 s).step1Calls = 1 := by
  by_cases h1 : is2xx r1.status = true
  · by_cases h2 : is2xx r2.status = true
    · simp [refreshToken, exchangeChain, h1, h2]
    · simp [refreshToken, exchangeChain, h1, h2]
  · simp [refreshToken, exchangeChain, h1]

lemma getToken_miss (margin now : Int) (r1 : Step1Response)
    (r2 : Step2Response) (s : TMState)
    (hmiss : cacheMiss margin now s = true) :
    getToken margin now r1 r2 s = refreshToken now r1 r2 s := by
  rcases s with ⟨cache⟩
  cases cache with
  | none => rfl
  | some c =>
    have hv : tokenIsValid margin now c = false := by
      simpa [cacheMiss] using hmiss
    simp [getToken, hv]

/-- C2 (amended): a cached token is treated as valid exactly when
now < expiresAt - safetyMargin; consequently getToken uses the cache (no
refresh, zero step-1 calls) at expiresAt - safetyMargin - 1, and triggers a
refresh at expiresAt - safetyMargin (boundary inclusive on the unsafe side)
and at expiresAt - safetyMargin + 1. -/
theorem c2_validity_boundary_amended (margin : Int) (c : CachedToken)
    (r1 : Step1Response) (r2 : Step2Response) :
    (∀ now : Int, tokenIsValid margin now c = true ↔
        now < c.expiresAt - margin) ∧
    (getToken margin (c.expiresAt - margin - 1) r1 r2
        { cache := some c }).step1Calls = 0 ∧
    (getToken margin (c.expiresAt - margin) r1 r2
        { cache := some c }).step1Calls = 1 ∧
    (getToken margin (c.expiresAt - margin + 1) r1 r2
        { cache := some c }).step1Calls = 1 := by
  refine ⟨fun now => by simp [tokenIsValid], ?_, ?_, ?_⟩
  · have hv : tokenIsValid margin (c.expiresAt - margin - 1) c = true := by
      simp [tokenIsValid]
    rw [getToken_cached_valid _ _ _ _ _ hv]
  · have hm : cacheMiss margin (c.expiresAt - margin) { cache := some c } = true := by
      simp [cacheMiss, tokenIsValid]
    rw [getToken_miss _ _ _ _ _ hm]
    exact refreshToken_step1Calls _ _ _ _
  · have hm : cacheMiss margin (c.expiresAt - margin + 1) { cache := some c } = true := by
      simp [cacheMiss, tokenIsValid]
    rw [getToken_miss _ _ _ _ _ hm]
    exact refreshToken_step1Calls _ _ _ _

/-- C2 counterexample: with expiresAt = 1000 and safetyMargin = 60, a
getToken call at time 939 = expiresAt - safetyMargin - 1 finds the cached
token valid and performs no refresh (zero step-1 network calls), returning
the cached pair; the claim that this call must trigger a refresh is false. -/
theorem c2_no_refresh_at_margin_minus_one :
    tokenIsValid 60 939
      { value := "T", baseUrl := "B", expiresAt := 1000, obtainedAt := 0 } = true ∧
    (getToken 60 939
      { status := 200, access_token := "P1", instance_url := "I" }
      { status := 200, access_token := "R1", base_url := "B2", expires_in := 3600 }
      { cache := some { value := "T", baseUrl := "B",
                        expiresAt := 1000, obtainedAt := 0 } }).step1Calls = 0 ∧
    (getToken 60 939
      { status := 200, access_token := "P1", instance_url := "I" }
      { status := 200, access_token := "R1", base_url := "B2", expires_in := 3600 }
      { cache := some { value := "T", baseUrl := "B",
                        expiresAt := 1000, obtainedAt := 0 } }).outcome =
      Except.ok ("T", "B") :=
  ⟨rfl, rfl, rfl⟩

/-- C3: whenever getToken misses the cache and the identity step returns a
non-2xx status, the call fails with AuthError at stage "identity", makes
exactly one step-1 call and no step-2 call (no retry), and leaves the cached
token state unchanged. -/
theorem c3_identity_failure_no_cache_write (margin now : Int)
    (r1 : Step1Response) (r2 : Step2Response) (s : TMState)
    (hmiss : cacheMiss margin now s = true)
    (h1 : is2xx r1.status = false) :
    (getToken margin now r1 r2 s).outcome =
        Except.error { stage := "identity", status := some r1.status } ∧
    (getToken margin now r1 r2 s).state = s ∧
    (getToken margin now r1 r2 s).step1Calls = 1 ∧
    (getToken margin now r1 r2 s).step2Calls = 0 := by
  refine ⟨?_, ?_, ?_, ?_⟩ <;>
    simp [getToken_miss margin now r1 r2 s hmiss, refreshToken,
          exchangeChain, h1]

/-- C3 witness: identity step answering 500 on an empty cache. -/
theorem c3_identity_failure_no_cache_write_witness :
    (getToken 60 0
      { status := 500, access_token := "", instance_url := "" }
      { status := 200, access_token := "R1", base_url := "B", expires_in := 3600 }
      { cache := none }).outcome =
        Except.error { stage := "identity", status := some 500 } ∧
    (getToken 60 0
      { status := 500, access_token := "", instance_url := "" }
      { status := 200, access_token := "R1", base_url := "B", expires_in := 3600 }
      { cache := none }).state = { cache := none } ∧
    (getToken 60 0
      { status := 500, access_token := "", instance_url := "" }
      { status := 200, access_token := "R1", base_url := "B", expires_in := 3600 }
      { cache := none }).step1Calls = 1 ∧
    (getToken 60 0
      { status := 500, access_token := "", instance_url := "" }
      { status := 200, access_token := "R1", base_url := "B", expires_in := 3600 }
      { cache := none }).step2Calls = 0 :=
  c3_identity_failure_no_cache_write 60 0
    { status := 500, access_token := "", instance_url := "" }
    { status := 200, access_token := "R1", base_url := "B", expires_in := 3600 }
    { cache := none } rfl (by decide)

lemma getToken_ok_pair_shape (margin now : Int) (r1 : Step1Response)
    (r2 : Step2Response) (s : TMState) (p : String × String)
    (h : (getToken margin now r1 r2 s).outcome = Except.ok p) :
    p = (r2.access_token, r2.base_url) ∨
      ∃ c, s.cache = some c ∧ p = (c.value, c.baseUrl) := by
  rcases s with ⟨cache⟩
  have hrefresh : (refreshToken now r1 r2 { cache := cache }).outcome =
        Except.ok p → p = (r2.access_token, r2.base_url) := by
    intro hr
    by_cases h1 : is2xx r1.status = true
    · by_cases h2 : is2xx r2.status = true
      · simp [refreshToken, exchangeChain, h1, h2] at hr
        exact hr.symm
      · simp [refreshToken, exchangeChain, h1, h2] at hr
    · simp [refreshToken, exchangeChain, h1] at hr
  cases cache with
  | none =>
    left
    exact hrefresh (by simpa [getToken] using h)
  | some c =>
    by_cases hv : tokenIsValid margin now c = true
    · right
      refine ⟨c, rfl, ?_⟩
      simp [getToken, hv] at h
      exact h.symm
    · left
      apply hrefresh
      simpa [getToken, hv] using h

lemma getToken_cache_write_shape (margin now : Int) (r1 : Step1Response)
    (r2 : Step2Response) (s : TMState) (c : CachedToken)
    (h : (getToken margin now r1 r2 s).state.cache = some c) :
    c.value = r2.access_token ∨ s.cache = some c := by
  rcases s with ⟨cache⟩
  have hrefresh : (refreshToken now r1 r2 { cache := cache }).state.cache =
        some c → c.value = r2.access_token ∨ cache = some c := by
    intro hr
    by_cases h1 : is2xx r1.status = true
    · by_cases h2 : is2xx r2.status = true
      · simp [refreshToken, exchangeChain, h1, h2] at hr
        left
        rw [← hr]
      · simp [refreshToken, exchangeChain, h1, h2] at hr
        right
        exact hr
    · simp [refreshToken, exchangeChain, h1] at hr
      right
      exact hr
  cases cache with
  | none => exact hrefresh (by simpa [getToken] using h)
  | some c0 =>
    by_cases hv : tokenIsValid margin now c0 = true
    · right
      simpa [getToken, hv] using h
    · exact hrefresh (by simpa [getToken, hv] using h)

/-- C4: whenever getToken misses the cache, the identity step succeeds and
the exchange step returns a non-2xx status, the call fails with AuthError at
stage "exchange" and the cached token state is unchanged; moreover, in every
execution of getToken, a successfully returned pair is either the step-2
token with its base URL or the previously cached pair, and any newly written
cache entry carries the step-2 token — the step-1 platform token is never
cached and never returned. -/
theorem c4_exchange_failure_step1_never_leaks (margin now : Int)
    (r1 : Step1Response) (r2 : Step2Response) (s : TMState)
    (hmiss : cacheMiss margin now s = true)
    (h1 : is2xx r1.status = true) (h2 : is2xx r2.status = false) :
    ((getToken margin now r1 r2 s).outcome =
        Except.error { stage := "exchange", status := some r2.status } ∧
     (getToken margin now r1 r2 s).state = s ∧
     (getToken margin now r1 r2 s).step2Calls = 1) ∧
    (∀ (m2 n2 : Int) (q1 : Step1Response) (q2 : Step2Response) (s2 : TMState)
        (p : String × String),
        (getToken m2 n2 q1 q2 s2).outcome = Except.ok p →
          p = (q2.access_token, q2.base_url) ∨
          ∃ c, s2.cache = some c ∧ p = (c.value, c.baseUrl)) ∧
    (∀ (m2 n2 : Int) (q1 : Step1Response) (q2 : Step2Response) (s2 : TMState)
        (c : CachedToken),
        (getToken m2 n2 q1 q2 s2).state.cache = some c →
          c.value = q2.access_token ∨ s2.cache = some c) := by
  refine ⟨⟨?_, ?_, ?_⟩, getToken_ok_pair_shape, getToken_cache_write_shape⟩ <;>
    simp [getToken_miss margin now r1 r2 s hmiss, refreshToken,
          exchangeChain, h1, h2]

/-- C4 witness: exchange step answering 403 on an empty cache. -/
theorem c4_exchange_failure_step1_never_leaks_witness :
    (getToken 60 0
      { status := 200, access_token := "P1", instance_url := "I" }
      { status := 403, access_token := "", base_url := "", expires_in := 0 }
      { cache := none }).outcome =
        Except.error { stage := "exchange", status := some 403 } ∧
    (getToken 60 0
      { status := 200, access_token := "P1", instance_url := "I" }
      { status := 403, access_token := "", base_url := "", expires_in := 0 }
      { cache := none }).state = { cache := none } :=
  ⟨(c4_exchange_failure_step1_never_leaks 60 0
      { status := 200, access_token := "P1", instance_url := "I" }
      { status := 403, access_token := "", base_url := "", expires_in := 0 }
      { cache := none } rfl (by decide) (by decide)).1.1,
   (c4_exchange_failure_step1_never_leaks 60 0
      { status := 200, access_token := "P1", instance_url := "I" }
      { status := 403, access_token := "", base_url := "", expires_in := 0 }
      { cache := none } rfl (by decide) (by decide)).1.2.1⟩

/-- C5: after invalidate, the next getToken call always performs a fresh
exchange chain (exactly one step-1 call), whatever was cached before, and on
a successful chain it returns the freshly exchanged step-2 pair, not served
from the previous cache. -/
theorem c5_invalidate_forces_fresh_chain (margin now : Int)
    (r1 : Step1Response) (r2 : Step2Response) (s : TMState) :
    (getToken margin now r1 r2 (invalidate s)).step1Calls = 1 ∧
    (is2xx r1.status = true → is2xx r2.status = true →
      (getToken margin now r1 r2 (invalidate s)).outcome =
        Except.ok (r2.access_token, r2.base_url)) := by
  constructor
  · show (refreshToken now r1 r2 (invalidate s)).step1Calls = 1
    exact refreshToken_step1Calls now r1 r2 (invalidate s)
  · intro h1 h2
    show (refreshToken now r1 r2 (invalidate s)).outcome = _
    simp [refreshToken, exchangeChain, h1, h2]

/-- C5 witness: a still-valid cached token is discarded by invalidate and the
following getToken call runs the chain and returns the fresh pair. -/
theorem c5_invalidate_forces_fresh_chain_witness :
    (getToken 60 0
      { status := 200, access_token := "P1", instance_url := "I" }
      { status := 200, access_token := "R2", base_url := "B2", expires_in := 3600 }
      (invalidate { cache := some { value := "OLD", baseUrl := "B1",
                                    expiresAt := 100000,
                                    obtainedAt := 0 } })).step1Calls = 1 ∧
    (getToken 60 0
      { status := 200, access_token := "P1", instance_url := "I" }
      { status := 200, access_token := "R2", base_url := "B2", expires_in := 3600 }
      (invalidate { cache := some { value := "OLD", baseUrl := "B1",
                                    expiresAt := 100000,
                                    obtainedAt := 0 } })).outcome =
      Except.ok ("R2", "B2") :=
  ⟨(c5_invalidate_forces_fresh_chain 60 0
      { status := 200, access_token := "P1", instance_url := "I" }
      { status := 200, access_token := "R2", base_url := "B2", expires_in := 3600 }
      { cache := some { value := "OLD", baseUrl := "B1",
                        expiresAt := 100000, obtainedAt := 0 } }).1,
   (c5_invalidate_forces_fresh_chain 60 0
      { status := 200, access_token := "P1", instance_url := "I" }
      { status := 200, access_token := "R2", base_url := "B2", expires_in := 3600 }
      { cache := some { value := "OLD", baseUrl := "B1",
                        expiresAt := 100000, obtainedAt := 0 } }).2
     (by decide) (by decide)⟩

lemma concStep_inflight_le (margin now : Int) (r2 : Step2Response)
    (s : ConcState) (e : TMEvent) (h : s.inflight ≤ 1) :
    (concStep margin now r2 s e).inflight ≤ 1 := by
  cases e with
  | arrive i =>
    rcases s with ⟨cache, inflight, waiters, served, chains⟩
    cases cache with
    | some c =>
      by_cases hv : tokenIsValid margin now c = true
      · simpa [concStep, hv] using h
      · simp only [concStep, hv]
        simp only [Bool.not_eq_true] at hv
        simp [hv, concJoin]
        split <;> simp_all
    | none =>
      simp [concStep, concJoin]
      split <;> simp_all
  | complete =>
    simp only [concStep]
    split
    · exact h
    · simpa using Nat.le_trans (Nat.sub_le s.inflight 1) h

lemma runConc_inflight_le (margin now : Int) (r2 : Step2Response)
    (evs : List TMEvent) (s : ConcState) (h : s.inflight ≤ 1) :
    (runConc margin now r2 s evs).inflight ≤ 1 := by
  induction evs generalizing s with
  | nil => exact h
  | cons e rest ih =>
    exact ih (concStep margin now r2 s e)
      (concStep_inflight_le margin now r2 s e h)

lemma runConc_arrivals_join (margin now : Int) (r2 : Step2Response)
    (ids : List Nat) (s : ConcState)
    (hc : s.cache = none) (hi : s.inflight = 1) :
    runConc margin now r2 s (ids.map TMEvent.arrive) =
      { s with waiters := ids.reverse ++ s.waiters } := by
  induction ids generalizing s with
  | nil => simp [runConc]
  | cons i rest ih =>
    have hstep : concStep margin now r2 s (TMEvent.arrive i) =
        { s with waiters := i :: s.waiters } := by
      rcases s with ⟨cache, inflight, waiters, served, chains⟩
      simp only at hc hi
      subst hc hi
      simp [concStep, concJoin]
    simp only [List.map_cons, runConc, hstep]
    rw [ih { s with waiters := i :: s.waiters } (by simp [hc]) (by simp [hi])]
    simp


lemma runConc_append (margin now : Int) (r2 : Step2Response)
    (a b : List TMEvent) (s : ConcState) :
    runConc margin now r2 s (a ++ b) =
      runConc margin now r2 (runConc margin now r2 s a) b := by
  induction a generalizing s with
  | nil => rfl
  | cons e rest ih => simp [runConc, ih]

/-- C7: in the single-flight concurrent model, at most one exchange chain is
in flight after any sequence of events from the initial state (so in
particular at every intermediate point of a run), and when any nonempty
group of callers arrives concurrently with no valid cached token and the
chain then completes, exactly one network call pair is started in total and
every one of those callers is served the same freshly exchanged pair. -/
theorem c7_single_flight_one_chain (margin now : Int) (r2 : Step2Response)
    (evs : List TMEvent) (ids : List Nat) (hne : ids ≠ []) :
    (runConc margin now r2 concInit evs).inflight ≤ 1 ∧
    ((runConc margin now r2 concInit
        (ids.map TMEvent.arrive ++ [TMEvent.complete])).chains = 1 ∧
     ∀ i ∈ ids, (i, r2.access_token, r2.base_url) ∈
        (runConc margin now r2 concInit
          (ids.map TMEvent.arrive ++ [TMEvent.complete])).served) := by
  constructor
  · exact runConc_inflight_le margin now r2 evs concInit (by simp [concInit])
  · rcases ids with _ | ⟨i0, rest⟩
    · exact absurd rfl hne
    have hstep0 : concStep margin now r2 concInit (TMEvent.arrive i0) =
        { cache := none, inflight := 1, waiters := [i0], served := [],
          chains := 1 } := by
      simp [concStep, concInit, concJoin]
    have harr : runConc margin now r2 concInit
        ((i0 :: rest).map TMEvent.arrive) =
        { cache := none, inflight := 1, waiters := rest.reverse ++ [i0],
          served := [], chains := 1 } := by
      simp only [List.map_cons, runConc, hstep0]
      rw [runConc_arrivals_join margin now r2 rest _ rfl rfl]
    have hrun : runConc margin now r2 concInit
        ((i0 :: rest).map TMEvent.arrive ++ [TMEvent.complete]) =
        { cache := some { value := r2.access_token, baseUrl := r2.base_url,
                          expiresAt := now + r2.expires_in, obtainedAt := now }
          inflight := 0
          waiters := []
          served := (rest.reverse ++ [i0]).map
                      (fun i => (i, r2.access_token, r2.base_url))
          chains := 1 } := by
      rw [runConc_append, harr]
      simp [runConc, concStep]
    rw [hrun]
    refine ⟨rfl, ?_⟩
    intro i hi
    simp only
    apply List.mem_map_of_mem
    simp only [List.mem_append, List.mem_reverse, List.mem_singleton]
    rcases List.mem_cons.mp hi with h | h
    · right; exact h
    · left; exact h

/-- C7 witness: three concurrent callers with an empty cache; a later lone
event list shows the in-flight bound as well. -/
theorem c7_single_flight_one_chain_witness :
    (runConc 60 0
      { status := 200, access_token := "R1", base_url := "B", expires_in := 3600 }
      concInit [TMEvent.arrive 7]).inflight ≤ 1 ∧
    ((runConc 60 0
      { status := 200, access_token := "R1", base_url := "B", expires_in := 3600 }
      concInit ([1, 2, 3].map TMEvent.arrive ++ [TMEvent.complete])).chains = 1 ∧
     ∀ i ∈ [1, 2, 3], (i, "R1", "B") ∈
        (runConc 60 0
          { status := 200, access_token := "R1", base_url := "B",
            expires_in := 3600 }
          concInit ([1, 2, 3].map TMEvent.arrive ++ [TMEvent.complete])).served) :=
  c7_single_flight_one_chain 60 0
    { status := 200, access_token := "R1", base_url := "B", expires_in := 3600 }
    [TMEvent.arrive 7] [1, 2, 3] (by decide)

/-- C6 counterexample: with a configured API key and the middleware answering
HTTP 401, the embedded _handleQuery issues exactly one HTTP request and zero
invalidate calls, then reports the failure; the claimed invalidate-once and
retry-exactly-once behaviour (which would need two requests and one
invalidate call) does not occur. -/
theorem c6_401_no_retry_counterexample :
    (handleQuery "http://localhost:8000" (some "k")
        (Transport.reply 401 "Unauthorized" "")).countP isHttpPost = 1 ∧
    (handleQuery "http://localhost:8000" (some "k")
        (Transport.reply 401 "Unauthorized" "")).countP isInvalidateCall = 0 ∧
    handleQuery "http://localhost:8000" (some "k")
        (Transport.reply 401 "Unauthorized" "") =
      [ExtEffect.httpPost "http://localhost:8000/api/v1/query" "k",
       ExtEffect.showError "Query failed: Error: HTTP 401: Unauthorized",
       ExtEffect.postQueryResponse false (some "NETWORK_ERROR")] :=
  ⟨rfl, rfl, rfl⟩

/-- C6 (amended): on any non-2xx middleware response, in particular 401 and
403, the extension's _handleQuery performs no retry and never calls
invalidate: it issues exactly one HTTP request, shows the failure to the
user, and posts a single NETWORK_ERROR queryResponse. -/
theorem c6_error_response_single_request (middlewareUrl : String)
    (k : String) (status : Nat) (statusText bodyStatus : String)
    (hk : k.isEmpty = false)
    (hstatus : responseOk status = false) :
    handleQuery middlewareUrl (some k)
        (Transport.reply status statusText bodyStatus) =
      [ExtEffect.httpPost (middlewareUrl ++ "/api/v1/query") k,
       ExtEffect.showError ("Query failed: Error: HTTP " ++ toString status
         ++ ": " ++ statusText),
       ExtEffect.postQueryResponse false (some "NETWORK_ERROR")] ∧
    (handleQuery middlewareUrl (some k)
        (Transport.reply status statusText bodyStatus)).countP isHttpPost = 1 ∧
    (handleQuery middlewareUrl (some k)
        (Transport.reply status statusText bodyStatus)).countP
      isInvalidateCall = 0 := by
  have hlist : handleQuery middlewareUrl (some k)
      (Transport.reply status statusText bodyStatus) =
      [ExtEffect.httpPost (middlewareUrl ++ "/api/v1/query") k,
       ExtEffect.showError ("Query failed: Error: HTTP " ++ toString status
         ++ ": " ++ statusText),
       ExtEffect.postQueryResponse false (some "NETWORK_ERROR")] := by
    simp [handleQuery, jsTruthyStr, hk, hstatus]
  refine ⟨hlist, ?_, ?_⟩ <;> simp [hlist, List.countP, List.countP.go,
    isHttpPost, isInvalidateCall]

/-- C6 amended-claim witness: status 403. -/
theorem c6_error_response_single_request_witness :
    handleQuery "http://localhost:8000" (some "k")
        (Transport.reply 403 "Forbidden" "") =
      [ExtEffect.httpPost "http://localhost:8000/api/v1/query" "k",
       ExtEffect.showError "Query failed: Error: HTTP 403: Forbidden",
       ExtEffect.postQueryResponse false (some "NETWORK_ERROR")] ∧
    (handleQuery "http://localhost:8000" (some "k")
        (Transport.reply 403 "Forbidden" "")).countP isHttpPost = 1 ∧
    (handleQuery "http://localhost:8000" (some "k")
        (Transport.reply 403 "Forbidden" "")).countP isInvalidateCall = 0 := by
  have h := c6_error_response_single_request "http://localhost:8000" "k"
    403 "Forbidden" "" (by decide) (by decide)
  simpa using h

/-- C8: when no API key is stored and the user dismisses the input prompt,
_getApiKey returns undefined, and _handleQuery reports the configuration
error and returns without issuing any HTTP request to the middleware. -/
theorem c8_missing_api_key_no_request (middlewareUrl : String)
    (t : Transport) :
    (getApiKey none none).1 = none ∧
    handleQuery middlewareUrl (getApiKey none none).1 t =
      [ExtEffect.showError
        "API key not configured. Please set the API key in settings."] ∧
    (handleQuery middlewareUrl (getApiKey none none).1 t).countP
      isHttpPost = 0 := by
  refine ⟨rfl, ?_, ?_⟩ <;>
    simp [getApiKey, handleQuery, jsTruthyStr, List.countP, List.countP.go,
      isHttpPost]

lemma chatStep_inv (s : ChatState) (e : ChatEvent) (h : chatInv s) :
    chatInv (chatStep s e) := by
  cases e with
  | setInput t => simpa [chatStep, chatInv] using h
  | send =>
    by_cases hc : ((jsTrim s.inputValue).isEmpty || s.isProcessing) = true
    · simpa [chatStep, sendQuery, hc] using h
    · have hc2 : ((jsTrim s.inputValue).isEmpty || s.isProcessing) = false := by
        simpa using hc
      rcases Bool.or_eq_false_iff.mp hc2 with ⟨_, hp⟩
      have h0 : s.inFlight = 0 := by simpa [chatInv, hp] using h
      simp [chatStep, sendQuery, hc, setProcessing, chatInv, h0]
  | response =>
    by_cases hp : s.isProcessing = true
    · have h1 : s.inFlight = 1 := by simpa [chatInv, hp] using h
      simp [chatStep, handleQueryResponse, setProcessing, chatInv, h1]
    · have h0 : s.inFlight = 0 := by
        simp [Bool.not_eq_true] at hp
        simpa [chatInv, hp] using h
      simp [chatStep, handleQueryResponse, setProcessing, chatInv, h0]

lemma runChat_inv (s : ChatState) (evs : List ChatEvent) (h : chatInv s) :
    chatInv (runChat s evs) := by
  induction evs generalizing s with
  | nil => exact h
  | cons e rest ih => exact ih (chatStep s e) (chatStep_inv s e h)

/-- C9: the webview posts a query message only when the trimmed input is
nonempty and no query is processing, and the posted text is that trimmed
input; posting enters the processing state with the send button and the
input disabled, and only a queryResponse leaves it; consequently, along any
event sequence from the initial state, at most one query posted from the
chat UI is in flight at any time. -/
theorem c9_send_gating_single_query (s : ChatState) (q : String)
    (hpost : (sendQuery s).2 = some q) :
    ((jsTrim s.inputValue).isEmpty = false ∧ s.isProcessing = false ∧
     q = jsTrim s.inputValue) ∧
    ((sendQuery s).1.isProcessing = true ∧
     (sendQuery s).1.sendButtonDisabled = true ∧
     (sendQuery s).1.inputDisabled = true) ∧
    (∀ s2 : ChatState, (handleQueryResponse s2).isProcessing = false) ∧
    (∀ evs : List ChatEvent, (runChat chatInit evs).inFlight ≤ 1) := by
  have hc : ((jsTrim s.inputValue).isEmpty || s.isProcessing) = false := by
    by_cases h : ((jsTrim s.inputValue).isEmpty || s.isProcessing) = true
    · simp [sendQuery, h] at hpost
    · simpa using h
  rcases Bool.or_eq_false_iff.mp hc with ⟨he, hp⟩
  have hq : q = jsTrim s.inputValue := by
    have := hpost
    simp [sendQuery, hc] at this
    exact this.symm
  refine ⟨⟨he, hp, hq⟩, ?_, ?_, ?_⟩
  · simp [sendQuery, hc, setProcessing]
  · intro s2
    simp [handleQueryResponse, setProcessing]
  · intro evs
    have := runChat_inv chatInit evs (by simp [chatInv, chatInit])
    rw [chatInv] at this
    rw [this]
    split <;> simp

/-- C9 witness: a concrete state with input " hello " and no query
processing posts the trimmed query and enters the processing state. -/
theorem c9_send_gating_single_query_witness :
    ((jsTrim " hello ").isEmpty = false ∧ false = false ∧ "hello" = jsTrim " hello ") ∧
    ((sendQuery { inputValue := " hello ", isProcessing := false,
                  sendButtonDisabled := false, inputDisabled := false,
                  statusText := "Ready", inFlight := 0 }).1.isProcessing = true ∧
     (sendQuery { inputValue := " hello ", isProcessing := false,
                  sendButtonDisabled := false, inputDisabled := false,
                  statusText := "Ready", inFlight := 0 }).1.sendButtonDisabled = true ∧
     (sendQuery { inputValue := " hello ", isProcessing := false,
                  sendButtonDisabled := false, inputDisabled := false,
                  statusText := "Ready", inFlight := 0 }).1.inputDisabled = true) ∧
    (∀ s2 : ChatState, (handleQueryResponse s2).isProcessing = false) ∧
    (∀ evs : List ChatEvent, (runChat chatInit evs).inFlight ≤ 1) := by
  have h := c9_send_gating_single_query
    { inputValue := " hello ", isProcessing := false,
      sendButtonDisabled := false, inputDisabled := false,
      statusText := "Ready", inFlight := 0 } "hello" (by decide)
  exact ⟨⟨by decide, rfl, by decide⟩, h.2.1, h.2.2.1, h.2.2.2⟩

lemma string_append_assoc (a b c : String) : a ++ b ++ c = a ++ (b ++ c) := by
  apply String.ext
  simp

lemma string_append_empty (a : String) : a ++ "" = a := by
  apply String.ext
  simp

lemma fields_foldl_eq_join (fields : List (String × JSVal)) (acc : String) :
    fields.foldl
      (fun r kv =>
        if jsDefined kv.2 then
          r ++ "- " ++ kv.1 ++ ": " ++ kv.2.render ++ "\n"
        else r) acc =
    acc ++ String.join ((fields.filter (fun kv => jsDefined kv.2)).map
      (fun kv => "- " ++ kv.1 ++ ": " ++ kv.2.render ++ "\n")) := by
  induction fields generalizing acc with
  | nil =>
    apply String.ext
    simp
  | cons kv rest ih =>
    by_cases hd : jsDefined kv.2 = true
    · simp only [List.foldl_cons, if_pos hd]
      rw [ih]
      apply String.ext
      simp [hd]
    · simp only [List.foldl_cons, if_neg hd]
      rw [ih]
      apply String.ext
      simp [hd]

lemma records_foldl_eq_join (l : List (Nat × List (String × JSVal)))
    (acc : String) :
    l.foldl
      (fun r p =>
        let r := r ++ "**Record " ++ toString (p.1 + 1) ++ ":**\n"
        let r := p.2.foldl
          (fun r kv =>
            if jsDefined kv.2 then
              r ++ "- " ++ kv.1 ++ ": " ++ kv.2.render ++ "\n"
            else r) r
        r ++ "\n") acc =
    acc ++ String.join (l.map (fun p => recordBlock p.1 p.2)) := by
  induction l generalizing acc with
  | nil =>
    apply String.ext
    simp
  | cons p rest ih =>
    simp only [List.foldl_cons, List.map_cons]
    rw [fields_foldl_eq_join, ih]
    apply String.ext
    simp [recordBlock]

/-- C10: formatQueryResponse returns exactly the fixed no-records message on
an empty record list; on a nonempty list the result begins with the header
naming total_size and is exactly the header followed by one block per
record — each block listing only the fields whose values are neither null
nor undefined — followed by the optional execution time note. -/
theorem c10_format_query_response (data : QueryData) :
    (data.records = [] →
      formatQueryResponse data = "No records found matching your query.") ∧
    (data.records ≠ [] →
      (∃ rest, formatQueryResponse data =
        "Found " ++ toString data.total_size ++ " record(s):" ++ rest) ∧
      formatQueryResponse data =
        "Found " ++ toString data.total_size ++ " record(s):\n\n" ++
        String.join (data.records.enum.map (fun p => recordBlock p.1 p.2)) ++
        execNote data) := by
  constructor
  · intro h
    simp [formatQueryResponse, h]
  · intro h
    have hlen : ¬ data.records.length = 0 := by
      simpa [List.length_eq_zero] using h
    have hmain : formatQueryResponse data =
        "Found " ++ toString data.total_size ++ " record(s):\n\n" ++
        String.join (data.records.enum.map (fun p => recordBlock p.1 p.2)) ++
        execNote data := by
      rcases hms : data.execution_time_ms with _ | t
      · simp only [formatQueryResponse, hlen, if_neg, execNote, hms]
        rw [records_foldl_eq_join]
        exact (string_append_empty _).symm
      · by_cases ht : (t != 0) = true
        · simp only [formatQueryResponse, hlen, if_neg, execNote, hms, ht,
            if_pos]
          rw [records_foldl_eq_join]
          apply String.ext
          simp
        · simp only [formatQueryResponse, hlen, if_neg, execNote, hms, ht]
          rw [records_foldl_eq_join]
          exact (string_append_empty _).symm
    refine ⟨⟨"\n\n" ++
      String.join (data.records.enum.map (fun p => recordBlock p.1 p.2)) ++
      execNote data, ?_⟩, hmain⟩
    rw [hmain]
    apply String.ext
    simp

/-- C10 witness: one record with a null field and a nonzero execution time,
and an empty response. -/
theorem c10_format_query_response_witness :
    formatQueryResponse { records := [], total_size := 0,
                          execution_time_ms := none } =
      "No records found matching your query." ∧
    formatQueryResponse
        { records := [[("Id", JSVal.jstr "1"), ("Phone", JSVal.jnull)]],
          total_size := 1, execution_time_ms := some 150 } =
      "Found 1 record(s):\n\n" ++
      String.join ([[("Id", JSVal.jstr "1"), ("Phone", JSVal.jnull)]].enum.map
        (fun p => recordBlock p.1 p.2)) ++
      execNote { records := [[("Id", JSVal.jstr "1"), ("Phone", JSVal.jnull)]],
                 total_size := 1, execution_time_ms := some 150 } :=
  ⟨(c10_format_query_response { records := [], total_size := 0,
                                execution_time_ms := none }).1 rfl,
   ((c10_format_query_response
      { records := [[("Id", JSVal.jstr "1"), ("Phone", JSVal.jnull)]],
        total_size := 1, execution_time_ms := some 150 }).2
      (by decide)).2⟩

